import Mathlib

/-!
Verification of the alias-allocation and inbound-delivery core of the
telegram disposable-email relay (src/main.py, src/db.py).

Text is modelled as `List Char` (one element per Unicode code point, matching
Python string indexing and `len`).  Python `str.strip` / `str.lower` /
`str.isalnum` are modelled on their ASCII fragment, which is all the claims
exercise.  Machine-level randomness (`ORDER BY RANDOM()`, `random.randint`)
is modelled by explicit parameters supplying the random choices.
-/

/-- Python str.strip on a character list: drop whitespace from both ends. -/
def pyStrip (s : List Char) : List Char :=
  ((s.dropWhile Char.isWhitespace).reverse.dropWhile Char.isWhitespace).reverse

/-- ASCII fragment of Python str.lower for a single character. -/
def charLower (c : Char) : Char :=
  if 65 ≤ c.toNat ∧ c.toNat ≤ 90 then Char.ofNat (c.toNat + 32) else c

/-- Python str.lower on a character list. -/
def pyLower (s : List Char) : List Char := s.map charLower

/-- Fuel-indexed body of chunk_text (main.py line 187-188): the Python
comprehension `[txt[i:i+size] for i in range(0, len(txt), size)]` expressed as
structural recursion; `fuel = txt.length` steps always suffice when
`1 ≤ size`. -/
def chunkTextFuel : Nat → List Char → Nat → List (List Char)
  | 0, _, _ => []
  | _ + 1, [], _ => []
  | fuel + 1, a :: txt, size =>
      ((a :: txt).take size) :: chunkTextFuel fuel ((a :: txt).drop size) size

/-- chunk_text from send_multipart_email (main.py lines 187-188). -/
def chunkText (txt : List Char) (size : Nat) : List (List Char) :=
  chunkTextFuel txt.length txt size

/-- The label size estimate used when budgeting (main.py lines 190, 199). -/
def partLabelTemplate : List Char := ("📩 New Email (9/9)\n\n").data

/-- Header truncation and budget computation of send_multipart_email
(main.py lines 190-203).  Returns the (possibly truncated) header, the
first-chunk body budget and the later-chunk body budget; both budgets are
integers because the Python subtraction may go negative before the
max-floors are applied. -/
def headerAndSizes (header : List Char) (max_len : Nat) : List Char × Int × Int :=
  let first_pref := partLabelTemplate ++ header ++ ("\n\n").data
  let first_size : Int := (max_len : Int) - (first_pref.length : Int)
  let hs : List Char × Int :=
    if first_size < 500 then
      let header := header.take 1200
      let first_pref := partLabelTemplate ++ header ++ ("\n\n").data
      (header, (max_len : Int) - (first_pref.length : Int))
    else (header, first_size)
  let other_size : Int := (max_len : Int) - (partLabelTemplate.length : Int)
  (hs.1, max hs.2 500, max other_size 1000)

/-- Body slicing of send_multipart_email (main.py lines 205-208): first chunk
takes the first-chunk budget, the rest is cut by chunk_text. -/
def bodyChunks (body : List Char) (first_size other_size : Int) : List (List Char) :=
  let first_chunk := body.take first_size.toNat
  let rest := body.drop first_size.toNat
  let rest_chunks := if rest = [] then [] else chunkText rest other_size.toNat
  first_chunk :: rest_chunks

/-- One outgoing message of send_multipart_email (main.py lines 211-216):
position p.1 is 0-based, p.2 is the body span; the first message carries the
header and a blank-line separator after the label. -/
def messageFor (header : List Char) (total : Nat) (p : Nat × List Char) : List Char :=
  let i := p.1 + 1
  let label := ("📩 New Email (").data ++ Nat.toDigits 10 i ++ ("/").data
      ++ Nat.toDigits 10 total ++ (")\n\n").data
  if i = 1 then label ++ header ++ ("\n\n").data ++ p.2 else label ++ p.2

/-- The ordered body spans produced by send_multipart_email (its variable
`chunks`); empty when the stripped body is empty, since that branch sends a
single header-only message with no body span. -/
def chunkerChunks (header0 body0 : List Char) (max_len : Nat) : List (List Char) :=
  let header := pyStrip header0
  let body := pyStrip body0
  if body = [] then []
  else
    let hs := headerAndSizes header max_len
    bodyChunks body hs.2.1 hs.2.2

/-- send_multipart_email (main.py lines 179-217) as the list of messages it
hands to the transport, in order. -/
def sendMultipartEmail (header0 body0 : List Char) (max_len : Nat) : List (List Char) :=
  let header := pyStrip header0
  let body := pyStrip body0
  if body = [] then [header.take max_len]
  else
    let hs := headerAndSizes header max_len
    let chunks := bodyChunks body hs.2.1 hs.2.2
    chunks.enum.map (messageFor hs.1 chunks.length)

/-- Truncation flag of parse_raw_email (main.py lines 88-177): empty input
reports truncated; otherwise the structured path returns the length guess
`len(raw) >= 3400` and the except-fallback path returns true.  `structuredOk`
stands for whether the external MIME parser succeeds without raising. -/
def parseTruncated (raw : List Char) (structuredOk : Bool) : Bool :=
  if raw = [] then true
  else if structuredOk then decide (3400 ≤ raw.length) else true

/-- One row of the name_pool table (db.py lines 64-74); the used_at timestamp
is wall-clock data and is not modelled. -/
structure PoolEntry where
  name : List Char
  used : Bool
  used_by : Option Int
  used_email : Option (List Char)
deriving DecidableEq, Repr

/-- One row of the emails table (db.py lines 52-62); the created_at timestamp
is wall-clock data and is not modelled. -/
structure EmailRow where
  address : List Char
  telegram_id : Int
  base_name : List Char
  is_active : Bool
deriving DecidableEq, Repr

/-- The persisted state touched by the core: the emails table and the
name_pool table, in row order. -/
structure DB where
  emails : List EmailRow
  pool : List PoolEntry
deriving DecidableEq, Repr

/-- Normalization of one candidate line in seed_names_from_file (db.py lines
102-109): strip, drop empties, lowercase, keep alphanumeric-or-underscore
characters only, drop empties again.  `Char.isAlphanum` is the ASCII fragment
of Python str.isalnum. -/
def normalizeLine (line : List Char) : Option (List Char) :=
  let n := pyStrip line
  if n = [] then none
  else
    let n := pyLower n
    let n := n.filter (fun ch => ch.isAlphanum || ch = '_')
    if n = [] then none else some n

/-- The `names` list accumulated by seed_names_from_file (db.py lines 100-109). -/
def seedNames (lines : List (List Char)) : List (List Char) :=
  lines.filterMap normalizeLine

/-- INSERT OR IGNORE INTO name_pool(name, used) VALUES(?, 0) (db.py line 117):
appends an unused entry unless a row with this primary-key name exists. -/
def insertOrIgnorePool (pool : List PoolEntry) (n : List Char) : List PoolEntry :=
  if pool.any (fun e => e.name = n) then pool else pool ++ [⟨n, false, none, none⟩]

/-- seed_names_from_file (db.py lines 93-119), with the file contents supplied
as a list of lines (a missing file is the empty list, returning 0).  Returns
the new pool and the Python return value `len(names)`. -/
def seed_names_from_file (pool : List PoolEntry) (lines : List (List Char)) :
    List PoolEntry × Nat :=
  let names := seedNames lines
  if names = [] then (pool, 0)
  else (names.foldl insertOrIgnorePool pool, names.length)

/-- SELECT name FROM name_pool WHERE used=0 ORDER BY RANDOM() LIMIT 1 (db.py
lines 133-135): `k` supplies the random choice among the unused rows; none
exactly when no unused row exists. -/
def selectUnused (pool : List PoolEntry) (k : Nat) : Option (List Char) :=
  let unused := pool.filter (fun e => !e.used)
  (unused.get? (k % unused.length)).map PoolEntry.name

/-- The decimal rendering used by the Python f-strings. -/
def natRepr (n : Nat) : List Char := Nat.toDigits 10 n

/-- One transaction attempt plus retry loop of create_email_for_user (db.py
lines 142-180), one list element per attempt.  An attempt whose address
collides with an existing emails primary key raises and rolls back; an
attempt whose conditional pool update matches other than one row rolls back;
otherwise the alias insert and the pool claim commit together.  Each raw
suffix draw `s` stands for random.randint(1000, 9999) via 1000 + s % 9000. -/
def attemptLoop (db : DB) (tid : Int) (domain base : List Char) :
    List Nat → DB × Option (List Char)
  | [] => (db, none)
  | s :: rest =>
      let suffix := 1000 + s % 9000
      let address := pyLower (base ++ natRepr suffix ++ ("@").data ++ domain)
      if db.emails.any (fun r => decide (r.address = address)) then
        attemptLoop db tid domain base rest
      else
        let rowcount :=
          (db.pool.filter (fun e => decide (e.name = base ∧ e.used = false))).length
        if rowcount ≠ 1 then attemptLoop db tid domain base rest
        else
          ({ emails := db.emails ++ [⟨address, tid, base, true⟩],
             pool := db.pool.map (fun e =>
               if e.name = base ∧ e.used = false then
                 { e with used := true, used_by := some tid, used_email := some address }
               else e) },
           some address)

/-- create_email_for_user (db.py lines 122-180): `k` models the random row
choice of the SELECT, `suffixes` the stream of suffix draws (the source draws
at most 30). -/
def create_email_for_user (db : DB) (tid : Int) (domain0 : List Char)
    (k : Nat) (suffixes : List Nat) : DB × Option (List Char) :=
  let domain := pyLower (pyStrip domain0)
  match selectUnused db.pool k with
  | none => (db, none)
  | some base => attemptLoop db tid domain base (suffixes.take 30)

/-- deactivate_email (db.py lines 183-194): UPDATE emails SET is_active=0
WHERE address=? AND telegram_id=? on the lowercased address; returns whether
the update matched at least one row (SQLite counts a matched row even when
is_active was already 0). -/
def deactivate_email (db : DB) (address : List Char) (tid : Int) : DB × Bool :=
  let a := pyLower address
  let matched :=
    (db.emails.filter (fun r => decide (r.address = a ∧ r.telegram_id = tid))).length
  ({ db with emails := db.emails.map (fun r =>
       if r.address = a ∧ r.telegram_id = tid then { r with is_active := false } else r) },
   decide (0 < matched))

/-- get_user_by_address (db.py lines 197-208): SELECT telegram_id FROM emails
WHERE address=? AND is_active=1 LIMIT 1 on the lowercased address. -/
def get_user_by_address (db : DB) (address : List Char) : Option Int :=
  let a := pyLower address
  ((db.emails.filter (fun r => decide (r.address = a ∧ r.is_active = true))).head?).map
    EmailRow.telegram_id

/-- list_emails (db.py lines 221-233): the rows of one owner, capped at
`limit`; the created_at ordering is wall-clock data and is not modelled. -/
def list_emails (db : DB) (tid : Int) (limit : Nat) : List EmailRow :=
  (db.emails.filter (fun r => decide (r.telegram_id = tid))).take limit

/-- The state-touching operations a caller can run after a deactivation:
allocation, seeding, listing and further deactivations. -/
inductive Op where
  | alloc (tid : Int) (domain : List Char) (k : Nat) (suffixes : List Nat)
  | seed (lines : List (List Char))
  | list (tid : Int) (limit : Nat)
  | deact (address : List Char) (tid : Int)

/-- Effect of one operation on the persisted state (listing is a pure read). -/
def applyOp (db : DB) : Op → DB
  | .alloc tid domain k suffixes => (create_email_for_user db tid domain k suffixes).1
  | .seed lines => { db with pool := (seed_names_from_file db.pool lines).1 }
  | .list _ _ => db
  | .deact address tid => (deactivate_email db address tid).1

/-- Running a sequence of operations left to right. -/
def runOps (db : DB) (ops : List Op) : DB := ops.foldl applyOp db

/-! Helper lemmas about the text primitives. -/

theorem charLower_toNat (n : Nat) (h1 : 97 ≤ n) (h2 : n ≤ 122) :
    (Char.ofNat n).toNat = n := by
  have hv : n.isValidChar := Or.inl (by omega)
  simp only [Char.ofNat, dif_pos hv, Char.ofNatAux, Char.toNat]
  simp [UInt32.toNat, BitVec.toNat_ofNatLt]

theorem charLower_idem (c : Char) : charLower (charLower c) = charLower c := by
  unfold charLower
  by_cases h : 65 ≤ c.toNat ∧ c.toNat ≤ 90
  · have ht := charLower_toNat (c.toNat + 32) (by omega) (by omega)
    simp only [if_pos h, ht]
    rw [if_neg (by omega)]
  · simp only [if_neg h]

theorem pyLower_idem (s : List Char) : pyLower (pyLower s) = pyLower s := by
  induction s with
  | nil => rfl
  | cons c t ih => simp [pyLower, charLower_idem] at ih ⊢

theorem filter_length_pos_iff {α : Type} (p : α → Bool) (l : List α) :
    0 < (l.filter p).length ↔ ∃ a ∈ l, p a = true := by
  rw [List.length_pos, Ne, List.filter_eq_nil_iff]
  push_neg
  simp

theorem chunkTextFuel_flatten (fuel : Nat) :
    ∀ (l : List Char) (sz : Nat), 1 ≤ sz → l.length ≤ fuel →
      (chunkTextFuel fuel l sz).flatten = l := by
  induction fuel with
  | zero =>
      intro l sz _ h2
      have hl : l = [] := List.length_eq_zero.mp (Nat.le_zero.mp h2)
      subst hl; rfl
  | succ n ih =>
      intro l sz h1 h2
      cases l with
      | nil => rfl
      | cons a t =>
          simp only [chunkTextFuel, List.flatten_cons]
          rw [ih ((a :: t).drop sz) sz h1 (by simp at h2 ⊢; omega)]
          exact List.take_append_drop sz (a :: t)

theorem chunkTextFuel_mem_length (fuel : Nat) :
    ∀ (l : List Char) (sz : Nat) (c : List Char),
      c ∈ chunkTextFuel fuel l sz → c.length ≤ sz := by
  induction fuel with
  | zero => intro l sz c h; simp [chunkTextFuel] at h
  | succ n ih =>
      intro l sz c h
      cases l with
      | nil => simp [chunkTextFuel] at h
      | cons a t =>
          simp only [chunkTextFuel, List.mem_cons] at h
          rcases h with h | h
          · subst h; simp [List.length_take]
          · exact ih _ _ _ h

/-! Allocator lemmas. -/

theorem attemptLoop_none_eq (sfx : List Nat) :
    ∀ (db : DB) (tid : Int) (domain base : List Char),
      (attemptLoop db tid domain base sfx).2 = none →
      (attemptLoop db tid domain base sfx).1 = db := by
  induction sfx with
  | nil => intro db tid domain base _; rfl
  | cons s rest ih =>
      intro db tid domain base h
      simp only [attemptLoop] at h ⊢
      split at h
      next hc =>
        rw [if_pos hc]
        exact ih db tid domain base h
      next hc =>
        rw [if_neg hc]
        split at h
        next hc2 =>
          rw [if_pos hc2]
          exact ih db tid domain base h
        next hc2 =>
          rw [if_neg hc2]
          simp at h

/-- helper: the result state of an exhausted allocation equals the input. -/
theorem create_email_none_eq (db : DB) (tid : Int) (domain : List Char)
    (k : Nat) (suffixes : List Nat)
    (h : (create_email_for_user db tid domain k suffixes).2 = none) :
    (create_email_for_user db tid domain k suffixes).1 = db := by
  unfold create_email_for_user at h ⊢
  cases hsel : selectUnused db.pool k with
  | none => rfl
  | some base =>
      rw [hsel] at h
      exact attemptLoop_none_eq (suffixes.take 30) db tid
        (pyLower (pyStrip domain)) base h

/-- C2: if allocate returns the exhaustion outcome (no unused name, or all 30
attempts failed), the name pool and the alias directory are exactly as they
were before the call. -/
theorem allocate_exhaustion_no_state_change (db : DB) (tid : Int)
    (domain : List Char) (k : Nat) (suffixes : List Nat)
    (h : (create_email_for_user db tid domain k suffixes).2 = none) :
    (create_email_for_user db tid domain k suffixes).1.pool = db.pool ∧
    (create_email_for_user db tid domain k suffixes).1.emails = db.emails := by
  rw [create_email_none_eq db tid domain k suffixes h]
  exact ⟨rfl, rfl⟩

/-- Witness for C2: a pool with one unused name and an alias row that collides
with every generated address makes all 30 attempts fail, and the state is
unchanged. -/
theorem allocate_exhaustion_no_state_change_witness :
    (create_email_for_user
      (⟨[⟨("ab1000@d").data, 7, ("ab").data, true⟩],
        [⟨("ab").data, false, none, none⟩]⟩ : DB)
      7 (("d").data) 0 (List.replicate 30 0)).2 = none ∧
    (create_email_for_user
      (⟨[⟨("ab1000@d").data, 7, ("ab").data, true⟩],
        [⟨("ab").data, false, none, none⟩]⟩ : DB)
      7 (("d").data) 0 (List.replicate 30 0)).1.pool
        = [⟨("ab").data, false, none, none⟩] ∧
    (create_email_for_user
      (⟨[⟨("ab1000@d").data, 7, ("ab").data, true⟩],
        [⟨("ab").data, false, none, none⟩]⟩ : DB)
      7 (("d").data) 0 (List.replicate 30 0)).1.emails
        = [⟨("ab1000@d").data, 7, ("ab").data, true⟩] :=
  ⟨by decide,
   (allocate_exhaustion_no_state_change _ 7 (("d").data) 0 (List.replicate 30 0)
      (by decide)).1,
   (allocate_exhaustion_no_state_change _ 7 (("d").data) 0 (List.replicate 30 0)
      (by decide)).2⟩

/-- C6: with no unused name in the pool, allocate fails immediately: the
random SELECT finds nothing, so the function returns the exhaustion outcome
with the state untouched, never reaching the 30-attempt loop. -/
theorem allocate_empty_pool_immediate (db : DB) (tid : Int)
    (domain : List Char) (k : Nat) (suffixes : List Nat)
    (h : db.pool.filter (fun e => !e.used) = []) :
    selectUnused db.pool k = none ∧
    create_email_for_user db tid domain k suffixes = (db, none) := by
  have hsel : selectUnused db.pool k = none := by
    unfold selectUnused
    rw [h]
    rfl
  refine ⟨hsel, ?_⟩
  unfold create_email_for_user
  rw [hsel]

/-- Witness for C6: a pool whose single entry is already used. -/
theorem allocate_empty_pool_immediate_witness :
    selectUnused [⟨("ab").data, true, some 7, some (("ab1000@d").data)⟩] 3 = none ∧
    create_email_for_user
      (⟨[], [⟨("ab").data, true, some 7, some (("ab1000@d").data)⟩]⟩ : DB)
      9 (("d").data) 3 [0, 1, 2]
      = (⟨[], [⟨("ab").data, true, some 7, some (("ab1000@d").data)⟩]⟩, none) :=
  allocate_empty_pool_immediate
    (⟨[], [⟨("ab").data, true, some 7, some (("ab1000@d").data)⟩]⟩ : DB)
    9 (("d").data) 3 [0, 1, 2] (by decide)

/-- helper: deactivate_email reports true exactly when some alias row matches
both the lowercased address and the owner. -/
theorem deactivate_matched_iff (db : DB) (a : List Char) (tid : Int) :
    (deactivate_email db a tid).2 = true ↔
      ∃ r ∈ db.emails, r.address = pyLower a ∧ r.telegram_id = tid := by
  simp [deactivate_email, filter_length_pos_iff]

/-- C7: deactivate returns true if and only if an alias row matches the given
address and owner, regardless of its active flag; a nonexistent or
foreign-owned address yields false (the update is total, never an error). -/
theorem deactivate_true_iff_matched (db : DB) (a : List Char) (tid : Int) :
    (deactivate_email db a tid).2 = true ↔
      ∃ r ∈ db.emails, r.address = pyLower a ∧ r.telegram_id = tid :=
  deactivate_matched_iff db a tid

/-- C10: deactivate and resolve_owner lowercase their address argument before
matching, so they agree with themselves on the lowercased address. -/
theorem address_lookup_case_insensitive (db : DB) (a : List Char) (tid : Int) :
    deactivate_email db a tid = deactivate_email db (pyLower a) tid ∧
    get_user_by_address db a = get_user_by_address db (pyLower a) := by
  unfold deactivate_email get_user_by_address
  rw [pyLower_idem]
  exact ⟨rfl, rfl⟩

/-! Seeding lemmas. -/

/-- a pool contains a name when some row has it as primary key. -/
def containsName (pool : List PoolEntry) (n : List Char) : Prop :=
  ∃ e ∈ pool, e.name = n

theorem insertOrIgnore_self (pool : List PoolEntry) (n : List Char) :
    containsName (insertOrIgnorePool pool n) n := by
  unfold insertOrIgnorePool containsName
  split
  next hc =>
    simp only [List.any_eq_true, decide_eq_true_eq] at hc
    exact hc
  next hc =>
    exact ⟨⟨n, false, none, none⟩, by simp⟩

theorem insertOrIgnore_mono (pool : List PoolEntry) (n m : List Char)
    (h : containsName pool m) : containsName (insertOrIgnorePool pool n) m := by
  unfold insertOrIgnorePool
  split
  · exact h
  · obtain ⟨e, he, hn⟩ := h
    exact ⟨e, List.mem_append_left _ he, hn⟩

theorem insertOrIgnore_of_contains (pool : List PoolEntry) (n : List Char)
    (h : containsName pool n) : insertOrIgnorePool pool n = pool := by
  unfold insertOrIgnorePool
  rw [if_pos]
  simp only [List.any_eq_true, decide_eq_true_eq]
  exact h

theorem foldl_insert_mono (names : List (List Char)) :
    ∀ (pool : List PoolEntry) (m : List Char), containsName pool m →
      containsName (names.foldl insertOrIgnorePool pool) m := by
  induction names with
  | nil => intro pool m h; exact h
  | cons a t ih =>
      intro pool m h
      exact ih _ m (insertOrIgnore_mono pool a m h)

theorem foldl_insert_contains (names : List (List Char)) :
    ∀ (pool : List PoolEntry) (n : List Char), n ∈ names →
      containsName (names.foldl insertOrIgnorePool pool) n := by
  induction names with
  | nil => intro pool n h; simp at h
  | cons a t ih =>
      intro pool n h
      rcases List.mem_cons.mp h with h | h
      · subst h
        exact foldl_insert_mono t _ n (insertOrIgnore_self pool n)
      · exact ih _ n h

theorem foldl_insert_noop (names : List (List Char)) :
    ∀ (pool : List PoolEntry), (∀ n ∈ names, containsName pool n) →
      names.foldl insertOrIgnorePool pool = pool := by
  induction names with
  | nil => intro pool _; rfl
  | cons a t ih =>
      intro pool h
      have ha : insertOrIgnorePool pool a = pool :=
        insertOrIgnore_of_contains pool a (h a (by simp))
      simp only [List.foldl_cons, ha]
      exact ih pool (fun n hn => h n (List.mem_cons_of_mem a hn))

/-- C9: seeding the same candidate list twice leaves the pool exactly as it
was after the first run. -/
theorem seed_idempotent (pool : List PoolEntry) (lines : List (List Char)) :
    (seed_names_from_file (seed_names_from_file pool lines).1 lines).1 =
      (seed_names_from_file pool lines).1 := by
  unfold seed_names_from_file
  by_cases h : seedNames lines = []
  · simp [h]
  · simp only [if_neg h]
    exact foldl_insert_noop (seedNames lines) _
      (fun n hn => foldl_insert_contains (seedNames lines) pool n hn)

/-- Counterexample for C3: with "foo" already in the pool, seeding the single
candidate "foo" inserts nothing but still returns 1, so the return value is
not the number of entries actually inserted. -/
theorem seed_count_counterexample :
    (seed_names_from_file [⟨("foo").data, false, none, none⟩] [("foo").data]).2 = 1 ∧
    (seed_names_from_file [⟨("foo").data, false, none, none⟩] [("foo").data]).1 =
      [⟨("foo").data, false, none, none⟩] :=
  ⟨by decide, by decide⟩

/-- C3 (amended): seed returns the number of candidates surviving
normalization, duplicates included; each surviving candidate is present in
the resulting pool, already-present names being silently skipped. -/
theorem seed_returns_normalized_count (pool : List PoolEntry)
    (lines : List (List Char)) :
    (seed_names_from_file pool lines).2 = (seedNames lines).length ∧
    ∀ n ∈ seedNames lines, containsName (seed_names_from_file pool lines).1 n := by
  constructor
  · unfold seed_names_from_file
    by_cases h : seedNames lines = [] <;> simp [h]
  · intro n hn
    unfold seed_names_from_file
    have h : seedNames lines ≠ [] := by
      intro h; rw [h] at hn; simp at hn
    simp only [if_neg h]
    exact foldl_insert_contains (seedNames lines) pool n hn

/-- Witness for C3 (amended) at a concrete input: seeding "ab" into an empty
pool returns the normalized count and stores the name. -/
theorem seed_returns_normalized_count_witness :
    (seed_names_from_file [] [("ab").data]).2 = (seedNames [("ab").data]).length ∧
    containsName (seed_names_from_file [] [("ab").data]).1 (("ab").data) :=
  ⟨(seed_returns_normalized_count [] [("ab").data]).1,
   (seed_returns_normalized_count [] [("ab").data]).2 (("ab").data) (by decide)⟩

/-- C8: the truncated flag is true whenever the input reaches 3400 characters
or the fallback path is taken (structuredOk = false); on the structured path
a 3399-character input reports false and a 3400-character input reports true. -/
theorem parse_truncated_boundary (raw : List Char) (ok : Bool) :
    (3400 ≤ raw.length → parseTruncated raw ok = true) ∧
    (ok = false → parseTruncated raw ok = true) ∧
    (raw.length = 3399 → ok = true → parseTruncated raw ok = false) ∧
    (raw.length = 3400 → parseTruncated raw ok = true) := by
  by_cases hr : raw = []
  · subst hr
    refine ⟨fun _ => rfl, fun _ => rfl, fun h3 _ => ?_, fun _ => rfl⟩
    simp at h3
  · cases ok with
    | false =>
        have hf : parseTruncated raw false = true := by
          unfold parseTruncated
          rw [if_neg hr]
          rfl
        exact ⟨fun _ => hf, fun _ => hf, fun _ h => by simp at h, fun _ => hf⟩
    | true =>
        have he : parseTruncated raw true = decide (3400 ≤ raw.length) := by
          unfold parseTruncated
          rw [if_neg hr, if_pos rfl]
        refine ⟨fun h => ?_, fun h => by simp at h, fun h3 _ => ?_, fun h4 => ?_⟩
        · rw [he]
          exact decide_eq_true h
        · rw [he, h3]
          decide
        · rw [he, h4]
          decide

/-- Witness for C8 at the boundary inputs: 3399 characters report false,
3400 characters report true. -/
theorem parse_truncated_boundary_witness :
    parseTruncated (List.replicate 3399 'a') true = false ∧
    parseTruncated (List.replicate 3400 'a') true = true :=
  ⟨(parse_truncated_boundary (List.replicate 3399 'a') true).2.2.1
      (by rw [List.length_replicate]) rfl,
   (parse_truncated_boundary (List.replicate 3400 'a') true).2.2.2
      (by rw [List.length_replicate])⟩

/-! Chunker lemmas. -/

theorem headerAndSizes_other_ge (header : List Char) (m : Nat) :
    (1000 : Int) ≤ (headerAndSizes header m).2.2 := by
  unfold headerAndSizes
  exact le_max_right _ _

/-- Counterexample for C4: the chunker strips the body before slicing, so for
the non-empty body consisting of a blank-padded "x" the concatenated spans
give back only "x", not the original body. -/
theorem chunker_spans_counterexample :
    (chunkerChunks (("h").data) ((" x ").data) 3900).flatten ≠ (" x ").data ∧
    (chunkerChunks (("h").data) ((" x ").data) 3900).flatten = ("x").data :=
  ⟨by decide, by decide⟩

/-- C4 (amended): the concatenation of the body spans equals the stripped
body exactly, and when the stripped body is non-empty the emitted messages
are precisely those spans, each prefixed by its label (plus header and
separator for the first). -/
theorem chunker_spans_reconstruct_stripped (h0 b0 : List Char) (m : Nat) :
    (chunkerChunks h0 b0 m).flatten = pyStrip b0 ∧
    (pyStrip b0 ≠ [] →
      sendMultipartEmail h0 b0 m =
        (chunkerChunks h0 b0 m).enum.map
          (messageFor (headerAndSizes (pyStrip h0) m).1
            (chunkerChunks h0 b0 m).length)) := by
  constructor
  · simp only [chunkerChunks]
    by_cases hb : pyStrip b0 = []
    · rw [if_pos hb, hb]
      rfl
    · rw [if_neg hb]
      simp only [bodyChunks, List.flatten_cons]
      split
      next hrest =>
        have h1 := List.take_append_drop
          ((headerAndSizes (pyStrip h0) m).2.1).toNat (pyStrip b0)
        rw [hrest, List.append_nil] at h1
        simpa using h1
      next hrest =>
        have hos : 1 ≤ ((headerAndSizes (pyStrip h0) m).2.2).toNat := by
          have := headerAndSizes_other_ge (pyStrip h0) m
          omega
        unfold chunkText
        rw [chunkTextFuel_flatten _ _ _ hos (le_refl _)]
        exact List.take_append_drop _ _
  · intro hb
    simp only [sendMultipartEmail, chunkerChunks, if_neg hb]

/-- Witness for C4 (amended) at a concrete input. -/
theorem chunker_spans_reconstruct_stripped_witness :
    (chunkerChunks (("h").data) (("ab").data) 3900).flatten
      = pyStrip (("ab").data) ∧
    sendMultipartEmail (("h").data) (("ab").data) 3900 =
      (chunkerChunks (("h").data) (("ab").data) 3900).enum.map
        (messageFor (headerAndSizes (pyStrip (("h").data)) 3900).1
          (chunkerChunks (("h").data) (("ab").data) 3900).length) :=
  ⟨(chunker_spans_reconstruct_stripped (("h").data) (("ab").data) 3900).1,
   (chunker_spans_reconstruct_stripped (("h").data) (("ab").data) 3900).2
     (by decide)⟩

theorem partLabelTemplate_length : partLabelTemplate.length = 19 := by decide

theorem toDigits_length_one (n : Nat) (h1 : 1 ≤ n) (h2 : n ≤ 9) :
    (Nat.toDigits 10 n).length = 1 := by
  interval_cases n <;> decide

/-- With max_len at least 1721 neither budget floor engages: the first-chunk
budget is exactly max_len minus label estimate, final header and separator,
and the later-chunk budget is exactly max_len minus the label estimate. -/
theorem headerAndSizes_spec (header : List Char) (m : Nat) (hm : 1721 ≤ m) :
    ((headerAndSizes header m).2.1).toNat + 21 + (headerAndSizes header m).1.length = m ∧
    ((headerAndSizes header m).2.2).toNat + 19 = m := by
  constructor
  · by_cases hc : ((m : Nat) : Int)
        - (((partLabelTemplate ++ header ++ ("\n\n").data).length : Nat) : Int) < 500
    · simp only [headerAndSizes, if_pos hc]
      have hl : (header.take 1200).length ≤ 1200 := by simp
      simp only [List.length_append, partLabelTemplate_length]
      have h2 : (("\n\n").data).length = 2 := by decide
      rw [h2]
      push_cast
      omega
    · simp only [headerAndSizes, if_neg hc]
      simp only [List.length_append, partLabelTemplate_length] at hc ⊢
      have h2 : (("\n\n").data).length = 2 := by decide
      rw [h2] at hc ⊢
      push_cast at hc ⊢
      omega
  · simp only [headerAndSizes, partLabelTemplate_length]
    push_cast
    omega

/-- Counterexample for C1: with maximum chunk size 30, a one-character header
and a 30-character body, the 500-character first-chunk floor overshoots the
budget and the single emitted message has 52 characters, exceeding 30. -/
theorem sendMultipart_len_counterexample :
    (sendMultipartEmail (("h").data) (List.replicate 30 'a') 30).any
      (fun msg => decide (30 < msg.length)) = true := by decide


theorem messageFor_length_first (hdr ch : List Char) (total : Nat)
    (h1 : 1 ≤ total) (h9 : total ≤ 9) :
    (messageFor hdr total (0, ch)).length = 19 + hdr.length + 2 + ch.length := by
  have h13 : (("📩 New Email (").data).length = 13 := by decide
  have hsl : (("/").data).length = 1 := by decide
  have hcl : ((")\n\n").data).length = 3 := by decide
  have hnn : (("\n\n").data).length = 2 := by decide
  have hd1 : (Nat.toDigits 10 1).length = 1 := by decide
  have hdt := toDigits_length_one total h1 h9
  simp [messageFor, List.length_append, hd1, hdt]
  omega

theorem messageFor_length_rest (hdr ch : List Char) (total i : Nat)
    (hi : 1 ≤ i) (hi9 : i + 1 ≤ 9) (ht1 : 1 ≤ total) (ht9 : total ≤ 9) :
    (messageFor hdr total (i, ch)).length = 19 + ch.length := by
  have h13 : (("📩 New Email (").data).length = 13 := by decide
  have hsl : (("/").data).length = 1 := by decide
  have hcl : ((")\n\n").data).length = 3 := by decide
  have hdi := toDigits_length_one (i + 1) (by omega) hi9
  have hdt := toDigits_length_one total ht1 ht9
  have hne : ¬(i = 0) := by omega
  simp [messageFor, hne, List.length_append, hdi, hdt]
  omega

/-- C1 (amended): every emitted labeled message fits in max_len, provided
max_len is at least 1721 (so the 500/1000-character body-budget floors never
exceed the available space) and at most 9 chunks are produced (so every label
is no longer than the reserved 9/9 template). -/
theorem sendMultipart_len_bounded (h0 b0 : List Char) (m : Nat)
    (hm : 1721 ≤ m) (htot : (chunkerChunks h0 b0 m).length ≤ 9) :
    ∀ msg ∈ sendMultipartEmail h0 b0 m, msg.length ≤ m := by
  intro msg hmsg
  by_cases hb : pyStrip b0 = []
  · simp only [sendMultipartEmail, if_pos hb, List.mem_singleton] at hmsg
    subst hmsg
    simp only [List.length_take]
    exact Nat.min_le_left _ _
  · obtain ⟨hfs, hos⟩ := headerAndSizes_spec (pyStrip h0) m hm
    have hchunks : chunkerChunks h0 b0 m
        = bodyChunks (pyStrip b0) (headerAndSizes (pyStrip h0) m).2.1
            (headerAndSizes (pyStrip h0) m).2.2 := by
      simp only [chunkerChunks, if_neg hb]
    rw [hchunks] at htot
    simp only [sendMultipartEmail, if_neg hb] at hmsg
    obtain ⟨p, hp, hpe⟩ := List.mem_map.mp hmsg
    set hsz := headerAndSizes (pyStrip h0) m with hhsz
    have hshape : bodyChunks (pyStrip b0) hsz.2.1 hsz.2.2
        = (pyStrip b0).take hsz.2.1.toNat ::
          (if (pyStrip b0).drop hsz.2.1.toNat = [] then []
           else chunkText ((pyStrip b0).drop hsz.2.1.toNat) hsz.2.2.toNat) := rfl
    set restC : List (List Char) :=
      if (pyStrip b0).drop hsz.2.1.toNat = [] then []
      else chunkText ((pyStrip b0).drop hsz.2.1.toNat) hsz.2.2.toNat
      with hrestC
    rw [hshape] at hp htot hpe
    simp only [List.length_cons] at htot hpe
    rw [List.enum_cons] at hp
    rcases List.mem_cons.mp hp with hp0 | hp1
    · subst hp0
      rw [← hpe,
        messageFor_length_first hsz.1 _ (restC.length + 1) (by omega) (by omega)]
      have htk : ((pyStrip b0).take hsz.2.1.toNat).length ≤ hsz.2.1.toNat := by
        simp
      omega
    · obtain ⟨i, x⟩ := p
      obtain ⟨hi1, hi2, hix⟩ := List.mem_enumFrom hp1
      rw [← hpe,
        messageFor_length_rest hsz.1 x (restC.length + 1) i hi1 (by omega)
          (by omega) (by omega)]
      have hxlen : x.length ≤ hsz.2.2.toNat := by
        by_cases hdrop : (pyStrip b0).drop hsz.2.1.toNat = []
        · rw [hrestC, if_pos hdrop] at hi2
          simp at hi2
          omega
        · have hxm : x ∈ restC := by
            rw [hix]
            exact List.getElem_mem _
          rw [hrestC, if_neg hdrop] at hxm
          exact chunkTextFuel_mem_length _ _ _ _ hxm
      omega

/-- Witness for C1 (amended) at a concrete input: the single message built
from header "h" and body "hi" fits in 3900 characters. -/
theorem sendMultipart_len_bounded_witness :
    1721 ≤ 3900 ∧
    (chunkerChunks (("h").data) (("hi").data) 3900).length ≤ 9 ∧
    ("📩 New Email (1/1)\n\nh\n\nhi").data.length ≤ 3900 :=
  ⟨by decide, by decide,
   sendMultipart_len_bounded (("h").data) (("hi").data) 3900 (by decide)
     (by decide) (("📩 New Email (1/1)\n\nh\n\nhi").data) (by decide)⟩

/-! Deactivation monotonicity. -/

/-- an address with at least one directory row, all of whose rows are
inactive: the state a successful deactivation establishes under the
address primary key. -/
def deadAddress (db : DB) (la : List Char) : Prop :=
  (∃ r ∈ db.emails, r.address = la) ∧
  ∀ r ∈ db.emails, r.address = la → r.is_active = false

theorem deadAddress_resolve_none (db : DB) (a : List Char)
    (h : deadAddress db (pyLower a)) : get_user_by_address db a = none := by
  have hfil : db.emails.filter
      (fun r => decide (r.address = pyLower a ∧ r.is_active = true)) = [] := by
    rw [List.filter_eq_nil_iff]
    intro r hr
    simp only [decide_eq_true_eq, not_and]
    intro h1 h2
    have hfalse := h.2 r hr h1
    rw [hfalse] at h2
    exact Bool.false_ne_true h2
  simp only [get_user_by_address, hfil]
  rfl

theorem deactivate_establishes_dead (db : DB) (a : List Char) (tid : Int)
    (hnd : (db.emails.map EmailRow.address).Nodup)
    (ht : (deactivate_email db a tid).2 = true) :
    deadAddress (deactivate_email db a tid).1 (pyLower a) := by
  obtain ⟨r0, hr0, ha0, ht0⟩ := (deactivate_matched_iff db a tid).mp ht
  constructor
  · refine ⟨{ r0 with is_active := false }, ?_, ha0⟩
    simp only [deactivate_email]
    refine List.mem_map.mpr ⟨r0, hr0, ?_⟩
    rw [if_pos ⟨ha0, ht0⟩]
  · intro r' hr' ha'
    simp only [deactivate_email] at hr'
    obtain ⟨r, hr, hf⟩ := List.mem_map.mp hr'
    by_cases hcond : r.address = pyLower a ∧ r.telegram_id = tid
    · rw [if_pos hcond] at hf
      rw [← hf]
    · rw [if_neg hcond] at hf
      subst hf
      have heq : r = r0 :=
        List.inj_on_of_nodup_map hnd hr hr0 (by rw [ha', ha0])
      rw [heq] at hcond
      exact absurd ⟨ha0, ht0⟩ hcond

theorem dead_preserved_attempt (la : List Char) (sfx : List Nat) :
    ∀ (db : DB) (tid : Int) (domain base : List Char), deadAddress db la →
      deadAddress (attemptLoop db tid domain base sfx).1 la := by
  induction sfx with
  | nil => intro db _ _ _ h; exact h
  | cons s rest ih =>
      intro db tid domain base h
      simp only [attemptLoop]
      split
      next hc => exact ih db tid domain base h
      next hc =>
        split
        next hc2 => exact ih db tid domain base h
        next hc2 =>
          constructor
          · obtain ⟨r0, hr0, ha0⟩ := h.1
            exact ⟨r0, List.mem_append_left _ hr0, ha0⟩
          · intro r' hr' ha'
            rcases List.mem_append.mp hr' with hin | hin
            · exact h.2 r' hin ha'
            · exfalso
              simp only [List.mem_singleton] at hin
              subst hin
              obtain ⟨r0, hr0, ha0⟩ := h.1
              apply hc
              simp only [List.any_eq_true, decide_eq_true_eq]
              exact ⟨r0, hr0, by rw [ha0, ← ha']⟩

theorem dead_preserved_op (la : List Char) (db : DB) (op : Op)
    (h : deadAddress db la) : deadAddress (applyOp db op) la := by
  cases op with
  | alloc tid domain k suffixes =>
      simp only [applyOp, create_email_for_user]
      cases hsel : selectUnused db.pool k with
      | none => exact h
      | some base => exact dead_preserved_attempt la _ db tid _ base h
  | seed lines => exact h
  | list tid limit => exact h
  | deact a' tid' =>
      constructor
      · obtain ⟨r0, hr0, ha0⟩ := h.1
        refine ⟨if r0.address = pyLower a' ∧ r0.telegram_id = tid'
            then { r0 with is_active := false } else r0,
          List.mem_map.mpr ⟨r0, hr0, rfl⟩, ?_⟩
        split
        · exact ha0
        · exact ha0
      · intro r' hr' ha'
        simp only [applyOp, deactivate_email] at hr'
        obtain ⟨r, hr, hf⟩ := List.mem_map.mp hr'
        subst hf
        by_cases hcond : r.address = pyLower a' ∧ r.telegram_id = tid'
        · rw [if_pos hcond]
        · rw [if_neg hcond] at ha' ⊢
          exact h.2 r hr ha'

theorem dead_preserved_runOps (la : List Char) (ops : List Op) :
    ∀ db : DB, deadAddress db la → deadAddress (runOps db ops) la := by
  induction ops with
  | nil => intro db h; exact h
  | cons o t ih => intro db h; exact ih _ (dead_preserved_op la db o h)

/-- C5: once deactivate returns true for an address (under the address
primary key, modelled as nodup addresses), resolve_owner on that address
returns none after every later sequence of allocations, seedings, listings
and deactivations: no operation reactivates an alias or reuses its address. -/
theorem deactivated_address_never_resolves (db : DB) (a : List Char) (tid : Int)
    (ops : List Op) (hnd : (db.emails.map EmailRow.address).Nodup)
    (ht : (deactivate_email db a tid).2 = true) :
    get_user_by_address (runOps (deactivate_email db a tid).1 ops) a = none :=
  deadAddress_resolve_none _ a
    (dead_preserved_runOps (pyLower a) ops _
      (deactivate_establishes_dead db a tid hnd ht))

/-- Witness for C5: deactivating the only alias, then seeding and
deactivating again, leaves the address unresolvable. -/
theorem deactivated_address_never_resolves_witness :
    (((⟨[⟨("x@d").data, 7, ("x").data, true⟩], []⟩ : DB)).emails.map
        EmailRow.address).Nodup ∧
    (deactivate_email (⟨[⟨("x@d").data, 7, ("x").data, true⟩], []⟩ : DB)
        (("x@d").data) 7).2 = true ∧
    get_user_by_address
      (runOps (deactivate_email
          (⟨[⟨("x@d").data, 7, ("x").data, true⟩], []⟩ : DB)
          (("x@d").data) 7).1
        [Op.seed [("ab").data], Op.deact (("x@d").data) 7])
      (("x@d").data) = none :=
  ⟨by decide, by decide,
   deactivated_address_never_resolves
     (⟨[⟨("x@d").data, 7, ("x").data, true⟩], []⟩ : DB) (("x@d").data) 7
     [Op.seed [("ab").data], Op.deact (("x@d").data) 7]
     (by decide) (by decide)⟩
